import Mathlib

/-!
Verification development for the `ladybugs-robotics` repository.

The repository's core (the `BookReaderOrchestrator` state machine, the
perception skills and the streaming speech pipeline, in Python under
`src/skills/` and `src/pipeline/`) is documented in `README.md`,
`PROJECT_PLAN.md` and the specification, but its Python sources are not
part of the files available here; definitions for it are modelled from
the specification and are marked `Modelled from the spec:` in their doc
comments.  The JavaScript artefacts that are available are embedded
directly from their sources:

* `demo/js/prerecorded-data.js` — the recorded session `WALKTHROUGH_SESSION`;
* `web/static/js/live-api.js` — the `LiveAPI` client (`setBaseUrl`,
  `healthCheck`, `readSpread`);
* the `WalkthroughController` replay driver (`play`, `restart`,
  `executeSubstep`, `streamText`).
-/

/-! ## Scene states, page types and skills (spec §3, `README.md` skill table) -/

/-- The enumerated workspace classification returned by `assess_scene`. -/
inductive SceneState
  | no_book
  | book_closed
  | book_open
  | book_done
deriving DecidableEq, Repr

/-- Page-type classification of an open spread. -/
inductive PageType
  | blank
  | index
  | cover
  | title
  | toc
  | content
deriving DecidableEq, Repr

/-- The five skills the orchestrator can invoke (the sixth skill,
`assess_scene`, is recorded as an `Event.assess`, and page classification
as an `Event.classify`). -/
inductive Skill
  | open_book
  | close_book
  | turn_page
  | read_left
  | read_right
deriving DecidableEq, Repr

/-- One assessment observation: the scene state, together with the page
type when the book is open (spec §3: when open, a Page Type is part of
the Scene State). -/
inductive Obs
  | no_book
  | book_closed
  | book_open (p : PageType)
  | book_done
deriving DecidableEq, Repr

/-- Terminal outcome of a session (spec §3: `completed` or `aborted`). -/
inductive Outcome
  | completed
  | aborted (reason : String)
deriving DecidableEq, Repr

/-- One observable event of an orchestrator cycle: a scene assessment, a
page classification, or a motor/perception skill invocation. -/
inductive Event
  | assess (s : SceneState)
  | classify (p : PageType)
  | skill (k : Skill)
deriving DecidableEq, Repr

/-- Modelled from the spec: the transition table of §4.1.  The missing
source is `src/skills/orchestrator.py` (`BookReaderOrchestrator`).  Given
the observation of one cycle, the events the orchestrator performs in
that cycle: the assessment itself, then — per the table — nothing
(`no_book`), `open_book` (`book_closed`), `close_book` (`book_done`), or,
for an open book, the classification followed by reading (skipped for
`blank`/`index` page types) and `turn_page`. -/
def cycleEvents : Obs → List Event
  | .no_book => [.assess .no_book]
  | .book_closed => [.assess .book_closed, .skill .open_book]
  | .book_done => [.assess .book_done, .skill .close_book]
  | .book_open p =>
      if p = .blank ∨ p = .index then
        [.assess .book_open, .classify p, .skill .turn_page]
      else
        [.assess .book_open, .classify p,
         .skill .read_left, .skill .read_right, .skill .turn_page]

/-- Modelled from the spec: whether an observation is terminal, and with
which outcome (§4.1: `no_book` aborts, `book_done` completes). -/
def terminalOutcome : Obs → Option Outcome
  | .no_book => some (.aborted "no book")
  | .book_done => some .completed
  | _ => none

/-- Modelled from the spec: the orchestrator's single blocking
"drive one session" loop (§4.1, §4.3), with the session-level watchdog of
§5/§7 as the `fuel` argument bounding the number of cycles.  `obsAt i` is
the scene assessment the perception skill returns at cycle `i`.  Returns
the full event trace and the terminal outcome. -/
def runFrom (obsAt : Nat → Obs) : Nat → Nat → List Event × Outcome
  | 0, _ => ([], .aborted "watchdog exceeded")
  | fuel + 1, i =>
      let o := obsAt i
      match terminalOutcome o with
      | some out => (cycleEvents o, out)
      | none =>
          let r := runFrom obsAt fuel (i + 1)
          (cycleEvents o ++ r.1, r.2)

/-- The skill invocations of a trace, in order. -/
def skillsOf (es : List Event) : List Skill :=
  es.filterMap fun e =>
    match e with
    | .skill k => some k
    | _ => none

/-! ## The recorded session `WALKTHROUGH_SESSION`
(`src/demo/js/prerecorded-data.js`)

Fields kept: `action`, `label`, `result`, `decision`, `elapsed_ms`,
`audio`, `audioStart`, `audioEnd`, `skipped`.  Presentation-only fields
of the JavaScript objects (`icon`, `input`, `nextAction`,
`animationOverlay`, `motorLabel`) are omitted; no claim depends on them.
Substep fields, in order:
action, label, result, decision, elapsed_ms, audio, audioStart,
audioEnd, skipped. -/

structure Substep where
  action : String
  label : String
  result : String
  decision : String
  elapsed_ms : Nat
  audio : Option String
  audioStart : Option Nat
  audioEnd : Option Nat
  skipped : Bool
deriving DecidableEq, Repr

structure SessionCycle where
  id : String
  label : String
  image : String
  substeps : List Substep
deriving DecidableEq, Repr

structure SessionData where
  bookTitle : String
  bookAuthor : String
  totalSpreads : Nat
  steps : List SessionCycle
deriving DecidableEq, Repr

/-- Cycle 1 of `WALKTHROUGH_SESSION`: detect the closed book and open it. -/
def walkthroughCycle1 : SessionCycle :=
  ⟨"cycle-1", "Cycle 1: Detect & Open", "images/spread-closed.jpg",
   [⟨"assess_scene", "Assess Scene", "book_closed",
     "Book is present but closed. Execute motor skill.",
     1850, none, none, none, false⟩,
    ⟨"motor_open_book", "Motor: Open Book", "success",
     "Book cover lifted. Re-assessing scene.",
     15000, none, none, none, false⟩]⟩

/-- Cycle 2 of `WALKTHROUGH_SESSION`: the TOC spread is read. -/
def walkthroughCycle2 : SessionCycle :=
  ⟨"cycle-2", "Cycle 2: Read TOC Spread", "images/spread-toc.jpg",
   [⟨"assess_scene", "Assess Scene", "book_open",
     "Book is open, pages visible. Classify page type.",
     1650, none, none, none, false⟩,
    ⟨"classify_page", "Classify Page", "toc",
     "Table of contents — readable page. Proceed to read.",
     1200, none, none, none, false⟩,
    ⟨"read_left", "Read Left Page",
     "Contents\n\nHow to use this book ........... 8\nYOU AND YOUR COMPUTER\nGetting Started .................. 14\nKnowing Your Computer ........... 16\nSetting Up Programs ............. 24",
     "Extracted 32 words. Streaming to ElevenLabs.",
     3200, some "audio/toc-reading.mp3", none, some 12, false⟩,
    ⟨"read_right", "Read Right Page",
     "PRACTICAL HOME PROJECTS\nMake address labels ............ 172\nPicture Perfect ................ 186\nCreate a greeting card ......... 198",
     "Extracted 24 words. Streaming to ElevenLabs.",
     2800, some "audio/toc-reading.mp3", some 12, none, false⟩,
    ⟨"turn_page", "Motor: Turn Page", "success ✔ hash changed",
     "Page turned. Frame hash changed → verified. Continue.",
     10000, none, none, none, false⟩]⟩

/-- Cycle 3 of `WALKTHROUGH_SESSION`: a content spread is read. -/
def walkthroughCycle3 : SessionCycle :=
  ⟨"cycle-3", "Cycle 3: Read Content", "images/spread-content.jpg",
   [⟨"assess_scene", "Assess Scene", "book_open",
     "Book is open, pages visible. Classify page type.",
     1700, none, none, none, false⟩,
    ⟨"classify_page", "Classify Page", "content",
     "Content page — robot reads this.",
     1100, none, none, none, false⟩,
    ⟨"read_left", "Read Left Page",
     "Hardware Hiccups\n\nMy keyboard isn’t working\n\nHardware or software may be at fault if your keyboard is acting up. First, check that the cable is firmly plugged in. If you use a wireless keyboard, check the batteries. If the problem persists, try restarting your computer.",
     "Extracted 47 words. Streaming to ElevenLabs (Chantal).",
     4500, some "audio/content-reading.mp3", none, some 18, false⟩,
    ⟨"read_right", "Read Right Page",
     "Solving Problems\n\nIf the whole keyboard fails, you can try the on-screen keyboard. Go to Start, then Programs, then Accessories, then Accessibility, and select On-Screen Keyboard.",
     "Extracted 31 words. Streaming to ElevenLabs (Kwame).",
     3800, some "audio/content-reading.mp3", some 18, none, false⟩,
    ⟨"turn_page", "Motor: Turn Page", "success ✔ hash changed",
     "Page turned. Frame hash verified. Continue loop.",
     10000, none, none, none, false⟩]⟩

/-- Cycle 4 of `WALKTHROUGH_SESSION`: the index spread is skipped, the
book is found done and closed. -/
def walkthroughCycle4 : SessionCycle :=
  ⟨"cycle-4", "Cycle 4: Skip & Close", "images/spread-index.jpg",
   [⟨"assess_scene", "Assess Scene", "book_open",
     "Book is open, pages visible. Classify page type.",
     1600, none, none, none, false⟩,
    ⟨"classify_page", "Classify Page", "index",
     "Index page — robot SKIPS this.",
     1100, none, none, none, true⟩,
    ⟨"turn_page", "Motor: Turn Page", "success",
     "Index skipped. Turning to check next spread.",
     10000, none, none, none, false⟩,
    ⟨"assess_scene", "Assess Scene", "book_done",
     "Last page / back cover reached. Close book.",
     1500, none, none, none, false⟩,
    ⟨"motor_close_book", "Motor: Close Book", "success",
     "Book closed. Session complete.",
     15000, none, none, none, false⟩]⟩

/-- `WALKTHROUGH_SESSION` from `src/demo/js/prerecorded-data.js`. -/
def WALKTHROUGH_SESSION : SessionData :=
  ⟨"How to Do Just About Anything on a Computer", "Reader's Digest", 4,
   [walkthroughCycle1, walkthroughCycle2, walkthroughCycle3, walkthroughCycle4]⟩

/-- Decode the `result` string of an `assess_scene` substep. -/
def sceneOfResult (r : String) : Option SceneState :=
  if r = "no_book" then some .no_book
  else if r = "book_closed" then some .book_closed
  else if r = "book_open" then some .book_open
  else if r = "book_done" then some .book_done
  else none

/-- Decode the `result` string of a `classify_page` substep. -/
def pageOfResult (r : String) : Option PageType :=
  if r = "blank" then some .blank
  else if r = "index" then some .index
  else if r = "cover" then some .cover
  else if r = "title" then some .title
  else if r = "toc" then some .toc
  else if r = "content" then some .content
  else none

/-- The orchestrator event a recorded substep stands for. -/
def eventOfSubstep (s : Substep) : Option Event :=
  if s.action = "assess_scene" then (sceneOfResult s.result).map .assess
  else if s.action = "classify_page" then (pageOfResult s.result).map .classify
  else if s.action = "motor_open_book" then some (.skill .open_book)
  else if s.action = "motor_close_book" then some (.skill .close_book)
  else if s.action = "turn_page" then some (.skill .turn_page)
  else if s.action = "read_left" then some (.skill .read_left)
  else if s.action = "read_right" then some (.skill .read_right)
  else none

/-- All substeps of the recorded session, across cycles, in order. -/
def walkthroughSubsteps : List Substep :=
  WALKTHROUGH_SESSION.steps.flatMap (·.substeps)

/-- The event trace the recorded session realizes. -/
def walkthroughEvents : List Event :=
  walkthroughSubsteps.filterMap eventOfSubstep

/-- The scene sequence of the C1 scenario:
`book_closed → book_open/toc → book_open/content → book_open/index →
book_done` (constant `book_done` afterwards; the run terminates there). -/
def scenarioObs : Nat → Obs := fun i =>
  match i with
  | 0 => .book_closed
  | 1 => .book_open .toc
  | 2 => .book_open .content
  | 3 => .book_open .index
  | _ => .book_done

/-- Claim C1: feeding the orchestrator the scene sequence `book_closed`,
`book_open/toc`, `book_open/content`, `book_open/index`, `book_done`
produces exactly the skills `open_book, read_left, read_right, turn_page,
read_left, read_right, turn_page, turn_page, close_book` (reading skipped
on the index spread — the recorded classify substep there is marked
skipped), the session terminates `completed`, and the recorded session
`WALKTHROUGH_SESSION` realizes exactly this orchestrator trace, event by
event. -/
theorem walkthrough_scenario_conformance :
    skillsOf (runFrom scenarioObs 10 0).1 =
      [.open_book, .read_left, .read_right, .turn_page,
       .read_left, .read_right, .turn_page, .turn_page, .close_book] ∧
    (runFrom scenarioObs 10 0).2 = .completed ∧
    walkthroughEvents = (runFrom scenarioObs 10 0).1 ∧
    ((walkthroughCycle4.substeps.get? 1).map Substep.skipped = some true) := by
  refine ⟨?_, ?_, ?_, ?_⟩ <;> rfl

/-! ## Claim C3: read skills only on open, readable pages -/

/-- Every event of a run belongs to the cycle events of some observation. -/
theorem mem_run_exists_cycle (obsAt : Nat → Obs) :
    ∀ (fuel i : Nat) (e : Event), e ∈ (runFrom obsAt fuel i).1 →
      ∃ j, e ∈ cycleEvents (obsAt j) := by
  intro fuel
  induction fuel with
  | zero => intro i e h; simp [runFrom] at h
  | succ n ih =>
      intro i e h
      simp only [runFrom] at h
      split at h
      · exact ⟨i, h⟩
      · rcases List.mem_append.mp h with h1 | h2
        · exact ⟨i, h1⟩
        · exact ih (i + 1) e h2

/-- Claim C3: within one cycle, a read skill (`read_left`/`read_right`) is
invoked iff the observation is `book_open` with page type `cover`, `title`,
`toc` or `content`; at session level, any read invocation in any run's trace
comes from such an observation; and the recorded index cycle of
`WALKTHROUGH_SESSION` contains no read substep. -/
theorem read_skills_only_on_readable_open_pages :
    (∀ o : Obs,
      ((Event.skill .read_left ∈ cycleEvents o ∨ Event.skill .read_right ∈ cycleEvents o) ↔
        ∃ p, o = .book_open p ∧
          (p = .cover ∨ p = .title ∨ p = .toc ∨ p = .content))) ∧
    (∀ (obsAt : Nat → Obs) (fuel i : Nat) (k : Skill),
      (k = .read_left ∨ k = .read_right) →
      Event.skill k ∈ (runFrom obsAt fuel i).1 →
      ∃ j p, obsAt j = .book_open p ∧
        (p = .cover ∨ p = .title ∨ p = .toc ∨ p = .content)) ∧
    (walkthroughCycle4.substeps.filter
      (fun s => s.action == "read_left" || s.action == "read_right") = []) := by
  have hcyc : ∀ o : Obs,
      ((Event.skill .read_left ∈ cycleEvents o ∨ Event.skill .read_right ∈ cycleEvents o) ↔
        ∃ p, o = .book_open p ∧
          (p = .cover ∨ p = .title ∨ p = .toc ∨ p = .content)) := by
    intro o
    cases o with
    | no_book => simp [cycleEvents]
    | book_closed => simp [cycleEvents]
    | book_done => simp [cycleEvents]
    | book_open p => cases p <;> simp [cycleEvents]
  refine ⟨hcyc, ?_, by rfl⟩
  intro obsAt fuel i k hk hmem
  obtain ⟨j, hj⟩ := mem_run_exists_cycle obsAt fuel i _ hmem
  have : Event.skill .read_left ∈ cycleEvents (obsAt j) ∨
      Event.skill .read_right ∈ cycleEvents (obsAt j) := by
    rcases hk with rfl | rfl
    · exact Or.inl hj
    · exact Or.inr hj
  obtain ⟨p, hp, hps⟩ := (hcyc (obsAt j)).mp this
  exact ⟨j, p, hp, hps⟩

/-- Witness for C3: in the C1 scenario run, `read_left` is invoked, and
indeed some scenario observation is an open readable page. -/
theorem read_skills_only_on_readable_open_pages_witness :
    ∃ j p, scenarioObs j = .book_open p ∧
      (p = .cover ∨ p = .title ∨ p = .toc ∨ p = .content) :=
  read_skills_only_on_readable_open_pages.2.1 scenarioObs 10 0 .read_left
    (Or.inl rfl) (by decide)

/-! ## Claim C6: watchdog-bounded termination -/

/-- Number of scene assessments (= cycles) in an event trace. -/
def assessCount (es : List Event) : Nat :=
  es.countP fun e =>
    match e with
    | .assess _ => true
    | _ => false

/-- Each cycle performs exactly one scene assessment. -/
theorem assessCount_cycleEvents (o : Obs) : assessCount (cycleEvents o) = 1 := by
  cases o with
  | book_open p => cases p <;> rfl
  | no_book => rfl
  | book_closed => rfl
  | book_done => rfl

/-- The total substep count of the recorded session's replay. -/
def replaySubstepTotal : Nat :=
  (WALKTHROUGH_SESSION.steps.map fun c => c.substeps.length).sum

/-- Claim C6: the orchestrator session loop is bounded by the watchdog —
every run performs at most `fuel` cycles, and a scene that never reaches
`book_done` (e.g. constantly `book_open content`) ends with the watchdog
abort; the replay driver's play loop over the recorded session executes
exactly the finitely many (17) recorded substeps. -/
theorem session_terminates_with_watchdog :
    (∀ (obsAt : Nat → Obs) (fuel i : Nat),
      assessCount (runFrom obsAt fuel i).1 ≤ fuel) ∧
    (∀ fuel i : Nat,
      (runFrom (fun _ => Obs.book_open .content) fuel i).2 =
        .aborted "watchdog exceeded") ∧
    replaySubstepTotal = 17 ∧
    walkthroughSubsteps.length = 17 := by
  refine ⟨?_, ?_, rfl, rfl⟩
  · intro obsAt fuel
    induction fuel with
    | zero => intro i; simp [runFrom, assessCount]
    | succ n ih =>
        intro i
        simp only [runFrom]
        split
        · show assessCount (cycleEvents (obsAt i)) ≤ n + 1
          have := assessCount_cycleEvents (obsAt i)
          omega
        · have h1 : assessCount (cycleEvents (obsAt i) ++
              (runFrom obsAt n (i + 1)).1) =
              assessCount (cycleEvents (obsAt i)) +
              assessCount (runFrom obsAt n (i + 1)).1 := by
            simp [assessCount, List.countP_append]
          simp only [h1, assessCount_cycleEvents (obsAt i)]
          have := ih (i + 1)
          omega
  · intro fuel
    induction fuel with
    | zero => intro i; rfl
    | succ n ih => intro i; simpa [runFrom] using ih (i + 1)

/-! ## Claim C2: stuck-page retry bound -/

/-- Result of the orchestrator's turn-page phase: either the page turned
(the hash changed) after `attempts` invocations of `turn_page`, or the
session aborts fatally with the stuck-page diagnostic after `attempts`
invocations. -/
inductive TurnResult
  | turned (attempts : Nat)
  | stuckPage (attempts : Nat)
deriving DecidableEq, Repr

/-- Total number of `turn_page` invocations a `TurnResult` records. -/
def TurnResult.attempts : TurnResult → Nat
  | .turned n => n
  | .stuckPage n => n

/-- Modelled from the spec: the same-page check of §4.1/§7 (missing
source `src/skills/orchestrator.py`).  `preHash` is the Frame Hash
captured immediately before the first turn; `postHash k` is the hash
captured on the assessment following the `(k+1)`-st `turn_page`
invocation.  `budget` is the number of invocations still allowed; when it
is exhausted the session aborts fatally (stuck page).  An invocation
whose post hash differs from `preHash` ends the phase successfully. -/
def turnPageWithRetry (postHash : Nat → Nat) (preHash : Nat) :
    Nat → Nat → TurnResult
  | 0, k => .stuckPage k
  | b + 1, k =>
      if postHash k = preHash then turnPageWithRetry postHash preHash b (k + 1)
      else .turned (k + 1)

/-- Modelled from the spec: one full turn-page phase with the configured
retry bound `maxRetries` — one initial invocation plus up to `maxRetries`
re-invocations. -/
def turnPagePhase (postHash : Nat → Nat) (preHash maxRetries : Nat) : TurnResult :=
  turnPageWithRetry postHash preHash (maxRetries + 1) 0

theorem turnPageWithRetry_attempts_le (postHash : Nat → Nat) (preHash : Nat) :
    ∀ b k, (turnPageWithRetry postHash preHash b k).attempts ≤ k + b := by
  intro b
  induction b with
  | zero => intro k; simp [turnPageWithRetry, TurnResult.attempts]
  | succ n ih =>
      intro k
      simp only [turnPageWithRetry]
      split
      · have := ih (k + 1)
        omega
      · simp [TurnResult.attempts]

theorem turnPageWithRetry_all_equal (postHash : Nat → Nat) (preHash : Nat)
    (hall : ∀ k, postHash k = preHash) :
    ∀ b k, turnPageWithRetry postHash preHash b k = .stuckPage (k + b) := by
  intro b
  induction b with
  | zero => intro k; rfl
  | succ n ih =>
      intro k
      simp only [turnPageWithRetry, hall k, if_pos]
      rw [ih (k + 1)]
      congr 1
      omega

theorem turnPageWithRetry_turned_hash_changed (postHash : Nat → Nat) (preHash : Nat) :
    ∀ b k n, turnPageWithRetry postHash preHash b k = .turned n →
      postHash (n - 1) ≠ preHash := by
  intro b
  induction b with
  | zero => intro k n h; simp [turnPageWithRetry] at h
  | succ m ih =>
      intro k n h
      simp only [turnPageWithRetry] at h
      split at h
      · exact ih (k + 1) n h
      · obtain rfl : k + 1 = n := by
          simpa [TurnResult.turned.injEq] using h
        simpa using ‹¬postHash k = preHash›

/-- Claim C2: the turn-page phase compares the pre-turn Frame Hash with
the hash captured on the next assessment; an unchanged hash causes a
re-invocation, at most `maxRetries` times beyond the initial turn, after
which the phase ends in the fatal stuck-page abort.  `turn_page` is never
retried indefinitely (the invocation count is bounded by
`maxRetries + 1`); a successful phase really saw a changed hash on its
final invocation. -/
theorem turn_page_retry_bounded :
    ∀ (postHash : Nat → Nat) (preHash maxRetries : Nat),
      (turnPagePhase postHash preHash maxRetries).attempts ≤ maxRetries + 1 ∧
      ((∀ k, postHash k = preHash) →
        turnPagePhase postHash preHash maxRetries = .stuckPage (maxRetries + 1)) ∧
      (∀ n, turnPagePhase postHash preHash maxRetries = .turned n →
        postHash (n - 1) ≠ preHash) := by
  intro postHash preHash m
  refine ⟨?_, ?_, ?_⟩
  · simpa using turnPageWithRetry_attempts_le postHash preHash (m + 1) 0
  · intro hall
    simpa using turnPageWithRetry_all_equal postHash preHash hall (m + 1) 0
  · intro n h
    exact turnPageWithRetry_turned_hash_changed postHash preHash (m + 1) 0 n h

/-- Witness for C2: with a hash source that never changes and retry bound
2, the phase aborts as a stuck page after exactly 3 invocations. -/
theorem turn_page_retry_bounded_witness :
    turnPagePhase (fun _ => 7) 7 2 = .stuckPage 3 :=
  (turn_page_retry_bounded (fun _ => 7) 7 2).2.1 (fun _ => rfl)

/-! ## Claim C8: `LiveAPI.healthCheck` (`src/web/static/js/live-api.js`) -/

/-- JSON values, as produced by `res.json()`. -/
inductive Json
  | str (s : String)
  | num (n : Int)
  | bool (b : Bool)
  | null
  | arr (xs : List Json)
  | obj (fields : List (String × Json))

/-- JavaScript property access `data.status`: the first field with the
given key of an object, `undefined` (`none`) for any other value. -/
def jsGetField : Json → String → Option Json
  | .obj fields, key => (fields.find? fun f => f.1 == key).map (·.2)
  | _, _ => none

/-- Outcome of `fetch(...)` followed by `res.json()` in `healthCheck`:
the fetch itself can reject (network failure, or the 5-second
`AbortSignal.timeout` firing), else it yields a response with an HTTP
status code and a body whose JSON parse either succeeds (`some`) or
throws (`none`).  `fetch` does not reject on HTTP error statuses. -/
inductive FetchOutcome
  | fetchError
  | response (status : Nat) (body : Option Json)

/-- `LiveAPI.healthCheck`: awaits the fetch and the JSON parse inside a
`try`/`catch` that returns `false`, and otherwise returns
`data.status === 'ok'`. -/
def healthCheck : FetchOutcome → Bool
  | .fetchError => false
  | .response _ none => false
  | .response _ (some data) =>
      match jsGetField data "status" with
      | some (.str s) => s == "ok"
      | _ => false

/-- Claim C8: for every outcome of the underlying request, `healthCheck`
returns a boolean (it is total and never throws — exceptions are caught
and map to `false`), and it returns `true` exactly when the response body
parsed as JSON whose `status` field is the string `'ok'` — regardless of
the HTTP status code. -/
theorem healthCheck_response_some_iff (st : Nat) (data : Json) :
    healthCheck (.response st (some data)) = true ↔
      jsGetField data "status" = some (.str "ok") := by
  simp only [healthCheck]
  rcases hf : jsGetField data "status" with _ | j
  · simp
  · cases j <;> simp

theorem healthCheck_true_iff :
    ∀ o : FetchOutcome,
      (healthCheck o = true ↔
        ∃ st data, o = .response st (some data) ∧
          jsGetField data "status" = some (.str "ok")) := by
  intro o
  cases o with
  | fetchError => simp [healthCheck]
  | response st body =>
      cases body with
      | none => simp [healthCheck]
      | some data =>
          rw [healthCheck_response_some_iff]
          constructor
          · intro h; exact ⟨st, data, rfl, h⟩
          · rintro ⟨st', data', heq, h⟩
            injection heq with h1 h2
            injection h2 with h3
            subst h3
            exact h

/-! ## Claim C9: `LiveAPI.setBaseUrl` (`src/web/static/js/live-api.js`) -/

/-- `LiveAPI.setBaseUrl`: `this.baseUrl = url.replace(/\/$/, '')`.  The
anchored pattern matches a single slash at the very end of the string, so
the replace removes exactly one trailing slash when one is present and
leaves the string unchanged otherwise.  URLs are modelled as their
character lists. -/
def setBaseUrl (url : List Char) : List Char :=
  if url.getLast? = some '/' then url.dropLast else url

/-- Claim C9: after `setBaseUrl url` the stored base URL is `url` with
exactly one trailing slash removed when `url` ends in a slash, and `url`
unchanged otherwise; a URL ending in two slashes therefore still ends in
a slash afterwards, and the normalization is not idempotent on such
inputs. -/
theorem setBaseUrl_strips_one_trailing_slash :
    (∀ url : List Char,
      (url.getLast? = some '/' → setBaseUrl url = url.dropLast) ∧
      (url.getLast? ≠ some '/' → setBaseUrl url = url)) ∧
    (∀ url t : List Char, url = t ++ ['/', '/'] →
      (setBaseUrl url).getLast? = some '/') ∧
    setBaseUrl (setBaseUrl ['a', '/', '/']) ≠ setBaseUrl ['a', '/', '/'] := by
  refine ⟨?_, ?_, by decide⟩
  · intro url
    constructor
    · intro h; simp [setBaseUrl, h]
    · intro h; simp [setBaseUrl, h]
  · intro url t h
    subst h
    have h2 : t ++ ['/', '/'] = (t ++ ['/']) ++ ['/'] := by
      simp
    rw [h2, setBaseUrl, if_pos (List.getLast?_concat (t ++ ['/']))]
    rw [List.dropLast_concat]
    exact List.getLast?_concat t

/-- Witness for C9: concrete evaluations — one slash is stripped, and a
double-slashed URL keeps a trailing slash. -/
theorem setBaseUrl_strips_one_trailing_slash_witness :
    setBaseUrl ['a', '/'] = List.dropLast ['a', '/'] ∧
    (setBaseUrl (['x'] ++ ['/', '/'])).getLast? = some '/' :=
  ⟨(setBaseUrl_strips_one_trailing_slash.1 ['a', '/']).1 (by decide),
   setBaseUrl_strips_one_trailing_slash.2.1 (['x'] ++ ['/', '/']) ['x'] rfl⟩

/-! ## Claim C10: `WalkthroughController.restart` -/

/-- The replay controller's mutable fields, from the constructor of
`WalkthroughController`.  DOM element references are not part of the
modelled state; the audio element is represented by its paused flag and
current time.  Field order: mode, readingMode, state, speed, cycleIdx,
substepIdx, pausedFlag (`_paused`), abortedFlag (`_aborted`),
textStreamAbort (`_textStreamAbort`), totalWordsRead,
totalStepsExecuted, audioPaused, audioCurrentTime. -/
structure ControllerState where
  mode : String
  readingMode : String
  state : String
  speed : Nat
  cycleIdx : Nat
  substepIdx : Nat
  pausedFlag : Bool
  abortedFlag : Bool
  textStreamAbort : Bool
  totalWordsRead : Nat
  totalStepsExecuted : Nat
  audioPaused : Bool
  audioCurrentTime : Nat
deriving DecidableEq, Repr

/-- `WalkthroughController.restart`: sets `_aborted = true`,
`_paused = false`, `state = 'idle'`, zeroes the replay position and the
statistics, pauses the audio element and rewinds it; the DOM-only resets
(timeline, text area, labels, images, overlay) have no counterpart in the
modelled state.  `mode`, `readingMode`, `speed` and `_textStreamAbort`
are not touched. -/
def restart (s : ControllerState) : ControllerState :=
  ⟨s.mode, s.readingMode, "idle", s.speed, 0, 0, false, true,
   s.textStreamAbort, 0, 0, true, 0⟩

/-- Claim C10: from every controller state (in particular every reachable
one), `restart` resets the replay — state `'idle'`, `cycleIdx`,
`substepIdx`, `totalWordsRead` and `totalStepsExecuted` all zero — while
leaving the operator-selected `mode`, `readingMode` and `speed`
unchanged. -/
theorem restart_resets_replay_keeps_settings :
    ∀ s : ControllerState,
      (restart s).state = "idle" ∧
      (restart s).cycleIdx = 0 ∧
      (restart s).substepIdx = 0 ∧
      (restart s).totalWordsRead = 0 ∧
      (restart s).totalStepsExecuted = 0 ∧
      (restart s).mode = s.mode ∧
      (restart s).readingMode = s.readingMode ∧
      (restart s).speed = s.speed :=
  fun _ => ⟨rfl, rfl, rfl, rfl, rfl, rfl, rfl, rfl⟩

/-! ## Claim C4: what a read substep awaits before returning
(`WalkthroughController.executeSubstep` / `streamText`)

Timing model of the replay driver, for an unpaused run: `sleep(ms)`
awaits `ms` milliseconds; `audioEl.play()` resolves as soon as playback
*starts*; the audio element then keeps playing in real time for
`audioEnd − audioStart` seconds (the `setInterval` watcher pauses it at
`audioEnd` without being awaited); each `streamText` loop iteration
awaits `sleep(20)`. -/

/-- `Math.max(1, Math.floor(this.speed))` of `streamText`. -/
def charsPerTick (speed : Nat) : Nat := max 1 speed

/-- Number of iterations of the `streamText` typing loop: the loop
advances `i` by `charsPerTick` while `i < chars.length`, i.e.
`⌈text.length / charsPerTick⌉` iterations (`0` for the empty string,
which returns immediately). -/
def streamTextTicks (speed : Nat) (text : String) : Nat :=
  (text.length + charsPerTick speed - 1) / charsPerTick speed

/-- One operation `executeSubstep` suspends on before returning.
`audioEnded` — waiting for audio playback to finish — is in the
vocabulary so that its absence from the actual trace can be stated. -/
inductive Await
  | sleep (ms : Nat)
  | audioPlayStart
  | textTick (ms : Nat)
  | audioEnded
deriving DecidableEq, Repr

/-- The ordered list of operations `executeSubstep` awaits on substep
`sub` at integer speed `speed`: the capped visual wait
`sleep(Math.min(waitMs, 3000 / speed))`, then — for a `read_left` /
`read_right` substep — `audioEl.play()` (when the substep has audio,
resolving at playback start) and the `streamText` ticks.  The
`setInterval` audio watcher and the elapsed counter are not awaited. -/
def executeSubstepAwaits (speed : Nat) (sub : Substep) : List Await :=
  Await.sleep (min (sub.elapsed_ms / speed) (3000 / speed)) ::
  (if sub.action = "read_left" ∨ sub.action = "read_right" then
      (match sub.audio with
       | some _ => [Await.audioPlayStart]
       | none => []) ++
      List.replicate (streamTextTicks speed sub.result) (Await.textTick 20)
    else [])

/-- Total awaited milliseconds of `executeSubstep` on `sub` (unpaused):
the capped visual wait plus, for read substeps, 20 ms per `streamText`
tick. -/
def executeSubstepAwaitMs (speed : Nat) (sub : Substep) : Nat :=
  min (sub.elapsed_ms / speed) (3000 / speed) +
  (if sub.action = "read_left" ∨ sub.action = "read_right" then
      20 * streamTextTicks speed sub.result
   else 0)

/-- Duration in milliseconds of the audio segment a substep plays: from
`audioStart` (default 0) to `audioEnd` seconds, when an end is set. -/
def audioSegmentMs (sub : Substep) : Option Nat :=
  sub.audioEnd.map fun e => (e - sub.audioStart.getD 0) * 1000

set_option maxRecDepth 8000 in
/-- Claim C4 is false on the code: on the recorded TOC left-page read
substep (`walkthroughCycle2.substeps[2]`) at speed 1, `executeSubstep`
awaits only 6560 ms (3000 ms capped visual wait + 178 `streamText` ticks
of 20 ms) while the substep's audio segment lasts 12000 ms, and its
awaited-operation trace contains no wait for audio completion — so the
read invocation returns (and the right page's reading begins, reassigning
the audio source) while the left page's audio is still playing. -/
theorem read_left_returns_before_its_audio_finishes :
    (walkthroughCycle2.substeps.get? 2).map (fun s => s.action) = some "read_left" ∧
    (walkthroughCycle2.substeps.get? 2).map (executeSubstepAwaitMs 1) = some 6560 ∧
    (walkthroughCycle2.substeps.get? 2).map audioSegmentMs = some (some 12000) ∧
    6560 < 12000 ∧
    (walkthroughCycle2.substeps.get? 2).map
      (fun s => decide (Await.audioEnded ∈ executeSubstepAwaits 1 s)) =
      some false := by
  exact ⟨rfl, rfl, rfl, by omega, rfl⟩

/-- Claim C4 (amended): a read substep of the replay driver awaits only
the capped visual delay, the *start* of audio playback, and the
text-streaming animation; it never awaits audio completion, for any
substep and any speed, so returning does not imply the substep's audio
has finished playing. -/
theorem executeSubstep_never_awaits_audio_end :
    ∀ (speed : Nat) (sub : Substep),
      Await.audioEnded ∉ executeSubstepAwaits speed sub := by
  intro speed sub h
  by_cases hr : sub.action = "read_left" ∨ sub.action = "read_right"
  · rcases ha : sub.audio with _ | a <;>
      simp [executeSubstepAwaits, hr, ha, List.mem_replicate] at h
  · simp [executeSubstepAwaits, hr] at h

/-- Witness for the amended C4 theorem at a concrete read substep. -/
theorem executeSubstep_never_awaits_audio_end_witness :
    Await.audioEnded ∉ executeSubstepAwaits 1
      ⟨"read_left", "Read Left Page", "Some page text.", "read",
       1000, some "a.mp3", none, some 2, false⟩ :=
  executeSubstep_never_awaits_audio_end 1
    ⟨"read_left", "Read Left Page", "Some page text.", "read",
     1000, some "a.mp3", none, some 2, false⟩

/-! ## Claim C7: `skim` words are a subset of `verbose` words -/

/-- The reading-mode discriminator (`skim` | `verbose`). -/
inductive ReadMode
  | skim
  | verbose
deriving DecidableEq, Repr

/-- The wire form of a mode, as sent by `LiveAPI.readSpread`. -/
def modeString : ReadMode → String
  | .skim => "skim"
  | .verbose => "verbose"

/-- Kind of a piece of page text: a title/heading/section header, or
body text. -/
inductive SegKind
  | heading
  | body
deriving DecidableEq, Repr

/-- A contiguous piece of a content page: its kind and its words. -/
structure Segment where
  kind : SegKind
  words : List String
deriving DecidableEq, Repr

/-- Modelled from the spec: `read_side`'s reading-mode handling (§4.3;
missing source `src/pipeline/page_reader.py`): `skim` reads titles,
headings and section headers only; `verbose` reads everything on the
page.  A page image is modelled by its sequence of tagged segments. -/
def readWords (mode : ReadMode) (page : List Segment) : List String :=
  match mode with
  | .skim => (page.filter fun seg => seg.kind == SegKind.heading).flatMap Segment.words
  | .verbose => page.flatMap Segment.words

/-- The request `LiveAPI.readSpread(imageBlob, mode)` builds
(`src/web/static/js/live-api.js`): a POST to `baseUrl + '/api/read-spread'`
whose form data carries the file under field `file` (named `frame.jpg`)
and the mode under field `mode`. -/
structure ReadSpreadRequest where
  url : String
  fileField : String
  fileName : String
  mode : String
deriving DecidableEq, Repr

/-- `LiveAPI.readSpread`'s request construction. -/
def readSpreadRequest (baseUrl : String) (mode : String) : ReadSpreadRequest :=
  ⟨baseUrl ++ "/api/read-spread", "file", "frame.jpg", mode⟩

/-- Claim C7: for every content page, every word read in `skim` mode is
also read in `verbose` mode on the identical page (monotonicity of
reading modes), and the mode discriminator is passed through the reading
interface unchanged. -/
theorem skim_words_subset_of_verbose :
    (∀ (page : List Segment) (w : String),
      w ∈ readWords .skim page → w ∈ readWords .verbose page) ∧
    (∀ (baseUrl : String) (m : ReadMode),
      (readSpreadRequest baseUrl (modeString m)).mode = modeString m) := by
  constructor
  · intro page w hw
    simp only [readWords, List.mem_flatMap] at hw ⊢
    obtain ⟨seg, hseg, hwseg⟩ := hw
    exact ⟨seg, (List.mem_filter.mp hseg).1, hwseg⟩
  · intro baseUrl m
    rfl

/-- Witness for C7 on a concrete page: the heading word survives into
verbose mode. -/
theorem skim_words_subset_of_verbose_witness :
    "Hardware" ∈ readWords .verbose
      [⟨.heading, ["Hardware", "Hiccups"]⟩, ⟨.body, ["My", "keyboard"]⟩] :=
  skim_words_subset_of_verbose.1
    [⟨.heading, ["Hardware", "Hiccups"]⟩, ⟨.body, ["My", "keyboard"]⟩]
    "Hardware" (by decide)

/-! ## Claim C5: the pipeline plays audio in sentence emission order

Modelled from the spec (§4.4; missing source
`src/pipeline/page_reader.py`): within one page-reading invocation the
sentences carry emission indices `0, 1, …, n − 1`; the synthesis
requester returns their audio chunks in an arbitrary completion order (a
permutation of the indices); the player consumes chunks strictly in
ascending index order, buffering any chunk that arrives out of order
until all lower-indexed chunks have played.  Chunks are identified by
their sentence index; the audio payload of index `i` is `synth i`. -/

/-- Modelled from the spec: the player's drain step.  With `next` the
lowest not-yet-played index and `buf` the buffered out-of-order chunks,
repeatedly play `next` while it is buffered.  `fuel` (instantiated with
`buf.length`) bounds the loop.  Returns (played indices in order, new
`next`, remaining buffer). -/
def flushIdx : Nat → Nat → List Nat → List Nat × Nat × List Nat
  | 0, next, buf => ([], next, buf)
  | f + 1, next, buf =>
      if next ∈ buf then
        let r := flushIdx f (next + 1) (buf.erase next)
        (next :: r.1, r.2.1, r.2.2)
      else ([], next, buf)

/-- Modelled from the spec: the player stage.  Each arriving chunk is
added to the buffer, then every consecutively-indexed buffered chunk
starting at `next` is played.  Returns the indices played, in playback
order. -/
def playerRun : Nat → List Nat → List Nat → List Nat
  | _, _, [] => []
  | next, buf, a :: rest =>
      let r := flushIdx (a :: buf).length next (a :: buf)
      r.1 ++ playerRun r.2.1 r.2.2 rest

theorem flushIdx_perm :
    ∀ (f next : Nat) (buf : List Nat),
      ((flushIdx f next buf).1 ++ (flushIdx f next buf).2.2).Perm buf := by
  intro f
  induction f with
  | zero => intro next buf; simp [flushIdx]
  | succ f ih =>
      intro next buf
      by_cases h : next ∈ buf
      · simp only [flushIdx, if_pos h, List.cons_append]
        exact ((ih (next + 1) (buf.erase next)).cons next).trans
          (List.perm_cons_erase h).symm
      · simp [flushIdx, if_neg h]

theorem flushIdx_played_range :
    ∀ (f next : Nat) (buf : List Nat),
      (flushIdx f next buf).1 =
        List.range' next ((flushIdx f next buf).2.1 - next) ∧
      next ≤ (flushIdx f next buf).2.1 := by
  intro f
  induction f with
  | zero => intro next buf; simp [flushIdx]
  | succ f ih =>
      intro next buf
      by_cases h : next ∈ buf
      · simp only [flushIdx, if_pos h]
        obtain ⟨h1, h2⟩ := ih (next + 1) (buf.erase next)
        refine ⟨?_, by omega⟩
        rw [h1]
        have hk : (flushIdx f (next + 1) (buf.erase next)).2.1 - next =
            ((flushIdx f (next + 1) (buf.erase next)).2.1 - (next + 1)) + 1 := by
          omega
        rw [hk, List.range'_succ]
      · simp [flushIdx, if_neg h]

theorem flushIdx_next_not_mem :
    ∀ (f next : Nat) (buf : List Nat), buf.length ≤ f →
      (flushIdx f next buf).2.1 ∉ (flushIdx f next buf).2.2 := by
  intro f
  induction f with
  | zero =>
      intro next buf hlen
      have : buf = [] := List.eq_nil_of_length_eq_zero (Nat.le_zero.mp hlen)
      subst this
      simp [flushIdx]
  | succ f ih =>
      intro next buf hlen
      by_cases h : next ∈ buf
      · simp only [flushIdx, if_pos h]
        apply ih
        have := List.length_erase_of_mem h
        have hpos : 0 < buf.length := List.length_pos_of_mem h
        omega
      · simp only [flushIdx, if_neg h]
        exact h

/-- Invariant run of the player: if the buffered chunks (with the lowest
pending index not among them) together with the chunks still to arrive
are exactly the pending indices `next, …, next + k − 1`, the player plays
them in ascending order. -/
theorem playerRun_plays_pending :
    ∀ (rest : List Nat) (next : Nat) (buf : List Nat) (k : Nat),
      next ∉ buf → (buf ++ rest).Perm (List.range' next k) →
      playerRun next buf rest = List.range' next k := by
  intro rest
  induction rest with
  | nil =>
      intro next buf k hnb hperm
      rw [List.append_nil] at hperm
      cases k with
      | zero => simp [playerRun]
      | succ k' =>
          exact absurd (hperm.mem_iff.mpr
            (List.mem_range'_1.mpr ⟨le_refl next, by omega⟩)) hnb
  | cons a rest ih =>
      intro next buf k hnb hperm
      simp only [playerRun]
      have hperm1 : ((a :: buf) ++ rest).Perm (List.range' next k) := by
        refine List.Perm.trans ?_ hperm
        simpa using List.perm_middle.symm
      have hflushPerm := flushIdx_perm (a :: buf).length next (a :: buf)
      obtain ⟨hr1, hle⟩ := flushIdx_played_range (a :: buf).length next (a :: buf)
      have hnotin := flushIdx_next_not_mem (a :: buf).length next (a :: buf)
        (le_refl _)
      have hperm2 :
          ((flushIdx (a :: buf).length next (a :: buf)).1 ++
            ((flushIdx (a :: buf).length next (a :: buf)).2.2 ++ rest)).Perm
            (List.range' next k) := by
        rw [← List.append_assoc]
        exact (hflushPerm.append_right rest).trans hperm1
      have hlen1 : (flushIdx (a :: buf).length next (a :: buf)).1.length =
          (flushIdx (a :: buf).length next (a :: buf)).2.1 - next := by
        rw [hr1, List.length_range']
      have hmk : (flushIdx (a :: buf).length next (a :: buf)).2.1 - next ≤ k := by
        have := hperm2.length_eq
        rw [List.length_append, hlen1, List.length_range'] at this
        omega
      have hsplit : List.range' next k =
          List.range' next ((flushIdx (a :: buf).length next (a :: buf)).2.1 - next) ++
          List.range' (flushIdx (a :: buf).length next (a :: buf)).2.1
            (k - ((flushIdx (a :: buf).length next (a :: buf)).2.1 - next)) := by
        have := List.range'_append next
          ((flushIdx (a :: buf).length next (a :: buf)).2.1 - next)
          (k - ((flushIdx (a :: buf).length next (a :: buf)).2.1 - next)) 1
        simp only [one_mul] at this
        rw [show next + ((flushIdx (a :: buf).length next (a :: buf)).2.1 - next) =
            (flushIdx (a :: buf).length next (a :: buf)).2.1 from by omega] at this
        rw [this]
        congr 1
        omega
      have hperm3 :
          ((flushIdx (a :: buf).length next (a :: buf)).2.2 ++ rest).Perm
            (List.range' (flushIdx (a :: buf).length next (a :: buf)).2.1
              (k - ((flushIdx (a :: buf).length next (a :: buf)).2.1 - next))) := by
        refine (List.perm_append_left_iff
          (flushIdx (a :: buf).length next (a :: buf)).1).mp ?_
        rw [show (flushIdx (a :: buf).length next (a :: buf)).1 ++
            List.range' (flushIdx (a :: buf).length next (a :: buf)).2.1
              (k - ((flushIdx (a :: buf).length next (a :: buf)).2.1 - next)) =
            List.range' next ((flushIdx (a :: buf).length next (a :: buf)).2.1 - next) ++
            List.range' (flushIdx (a :: buf).length next (a :: buf)).2.1
              (k - ((flushIdx (a :: buf).length next (a :: buf)).2.1 - next)) from by
          rw [hr1]]
        rw [← hsplit]
        exact hperm2
      have hrec := ih (flushIdx (a :: buf).length next (a :: buf)).2.1
        (flushIdx (a :: buf).length next (a :: buf)).2.2
        (k - ((flushIdx (a :: buf).length next (a :: buf)).2.1 - next))
        hnotin hperm3
      rw [hrec, hr1, ← hsplit]

/-- Claim C5: for every completion-order interleaving (any permutation of
the emission indices `0 … n − 1`) within one page-reading invocation, the
player plays the chunks exactly in sentence emission order, so the spoken
audio of the page half equals playing the synthesized sentences
start-to-end. -/
theorem pipeline_plays_in_emission_order :
    ∀ (n : Nat) (arrivals : List Nat), arrivals.Perm (List.range n) →
      playerRun 0 [] arrivals = List.range n ∧
      ∀ synth : Nat → String,
        (playerRun 0 [] arrivals).map synth = (List.range n).map synth := by
  intro n arrivals hperm
  have h : playerRun 0 [] arrivals = List.range' 0 n := by
    apply playerRun_plays_pending arrivals 0 [] n (by simp)
    simpa [List.range_eq_range'] using hperm
  rw [List.range_eq_range']
  exact ⟨h, fun synth => by rw [h]⟩

/-- Witness for C5: the out-of-order completion `2, 0, 1` still plays
`0, 1, 2`. -/
theorem pipeline_plays_in_emission_order_witness :
    playerRun 0 [] [2, 0, 1] = List.range 3 :=
  (pipeline_plays_in_emission_order 3 [2, 0, 1] (by decide)).1
